import Mathlib

/-!
Verification of the zapcrawler mail-discovery aggregation service
(src/parser/main.py) against its specification.

The service accepts a batch of email-header records and returns the
deduplicated collection of address strings found in the from/to/cc/bcc
fields together with the count of input records.  The embedding below
mirrors the Python source: a record type with the same fields, the
Python truthiness tests on optional fields (None, the empty string and
the empty list are all falsy), and a duplicate-free list standing for
the Python set with insertion used for every add.
-/

/-- One email header record, as validated from the request body.
Mirrors the pydantic model EmailHeader in src/parser/main.py: the
fields id and folder are required, every other field is optional. -/
structure EmailHeader where
  id : String
  subject : Option String
  from_addr : Option String
  to_addr : Option (List String)
  cc : Option (List String)
  bcc : Option (List String)
  date : Option String
  folder : String
deriving DecidableEq, Repr

/-- Add one element to a duplicate-free list, modelling a Python
set-add: the element is appended only when it is not already there. -/
def setAdd (s : List String) (e : String) : List String :=
  if e ∈ s then s else s ++ [e]

/-- Add every element of a list, modelling the for-loop
"for email in header.to_addr: unique_emails.add(email)". -/
def setAddAll (s : List String) (es : List String) : List String :=
  es.foldl setAdd s

/-- Model of "if header.from_addr: unique_emails.add(header.from_addr)".
Python truthiness: None and the empty string are falsy, so the add
happens only for a present, non-empty string. -/
def addIfTruthyStr (s : List String) : Option String → List String
  | none => s
  | some a => if a = "" then s else setAdd s a

/-- Model of "if header.to_addr: for email in header.to_addr: add".
Python truthiness: None and the empty list are falsy, so the loop
runs only for a present, non-empty list. -/
def addIfTruthyList (s : List String) : Option (List String) → List String
  | none => s
  | some l => if l = [] then s else setAddAll s l

/-- The body of the aggregation loop of parse_headers for one record:
the four guarded adds for from_addr, to_addr, cc and bcc, in source
order. -/
def processHeader (s : List String) (header : EmailHeader) : List String :=
  addIfTruthyList
    (addIfTruthyList
      (addIfTruthyList
        (addIfTruthyStr s header.from_addr)
        header.to_addr)
      header.cc)
    header.bcc

/-- The /parse endpoint body: fold the aggregation loop over the
validated records starting from an empty set, and pair the resulting
unique_emails list with total_processed = len(request.headers). -/
def parse_headers (headers : List EmailHeader) : List String × Nat :=
  (headers.foldl processHeader [], headers.length)

/-- A record contributes the address a exactly when a is its (truthy,
hence non-empty) from_addr or an element of one of its present
to/cc/bcc lists. -/
def contributes (header : EmailHeader) (a : String) : Prop :=
  (header.from_addr = some a ∧ a ≠ "") ∨
  a ∈ header.to_addr.getD [] ∨
  a ∈ header.cc.getD [] ∨
  a ∈ header.bcc.getD []

instance (header : EmailHeader) (a : String) : Decidable (contributes header a) := by
  unfold contributes
  exact inferInstance

/-- One raw header record as it arrives in the JSON body, before
validation: every field, the required ones included, may be absent. -/
structure RawHeader where
  id : Option String
  subject : Option String
  from_addr : Option String
  to_addr : Option (List String)
  cc : Option (List String)
  bcc : Option (List String)
  date : Option String
  folder : Option String
deriving DecidableEq, Repr

/-- Validation of one record against the pydantic model EmailHeader:
id and folder are required, so a record missing either is rejected
with an error naming the failed field; every other field passes
through unchanged (defaulting to absent). -/
def validateHeader (raw : RawHeader) : Except String EmailHeader :=
  match raw.id with
  | none => Except.error "id: Field required"
  | some i =>
    match raw.folder with
    | none => Except.error "folder: Field required"
    | some f =>
      Except.ok
        { id := i, subject := raw.subject, from_addr := raw.from_addr,
          to_addr := raw.to_addr, cc := raw.cc, bcc := raw.bcc,
          date := raw.date, folder := f }

/-- Validation of the whole request body: every record must validate,
and any failure rejects the whole batch. -/
def validateRequest : List RawHeader → Except String (List EmailHeader)
  | [] => Except.ok []
  | raw :: rest =>
    match validateHeader raw with
    | Except.error e => Except.error e
    | Except.ok header =>
      match validateRequest rest with
      | Except.error e => Except.error e
      | Except.ok headers => Except.ok (header :: headers)

/-- The full /parse request handling: validation followed by
aggregation; a validation error is surfaced to the caller and no
aggregation result is produced. -/
def handleParse (raws : List RawHeader) : Except String (List String × Nat) :=
  match validateRequest raws with
  | Except.error e => Except.error e
  | Except.ok headers => Except.ok (parse_headers headers)

/-- Replace an empty-string from field by an absent one, leaving every
other record unchanged. -/
def blankFrom (header : EmailHeader) : EmailHeader :=
  if header.from_addr = some "" then
    { header with from_addr := none }
  else header

/-- Two optional list fields that are equal, or differ only in that
one is an explicit empty list where the other is absent. -/
def optListEquiv (o1 o2 : Option (List String)) : Prop :=
  o1 = o2 ∨ (o1 = some [] ∧ o2 = none) ∨ (o1 = none ∧ o2 = some [])

instance (o1 o2 : Option (List String)) : Decidable (optListEquiv o1 o2) := by
  unfold optListEquiv
  exact inferInstance

/-- Two records equal in every field except that any of to/cc/bcc may
be an explicit empty list in one and absent in the other. -/
def sameUpToEmptyLists (h1 h2 : EmailHeader) : Prop :=
  h1.id = h2.id ∧ h1.subject = h2.subject ∧ h1.from_addr = h2.from_addr ∧
  optListEquiv h1.to_addr h2.to_addr ∧ optListEquiv h1.cc h2.cc ∧
  optListEquiv h1.bcc h2.bcc ∧ h1.date = h2.date ∧ h1.folder = h2.folder

instance (h1 h2 : EmailHeader) : Decidable (sameUpToEmptyLists h1 h2) := by
  unfold sameUpToEmptyLists
  exact inferInstance

/-- Two records that agree on the four address-bearing fields
from/to/cc/bcc, while id, subject, date and folder may differ. -/
def sameAddressFields (h1 h2 : EmailHeader) : Prop :=
  h1.from_addr = h2.from_addr ∧ h1.to_addr = h2.to_addr ∧
  h1.cc = h2.cc ∧ h1.bcc = h2.bcc

instance (h1 h2 : EmailHeader) : Decidable (sameAddressFields h1 h2) := by
  unfold sameAddressFields
  exact inferInstance

/-- Concrete record: a non-empty from field and nothing else. -/
def sampleFromOnly : EmailHeader :=
  { id := "1", subject := none, from_addr := some "a@x.com", to_addr := none,
    cc := none, bcc := none, date := none, folder := "inbox" }

/-- Concrete record: the from field is the empty string. -/
def sampleEmptyFrom : EmailHeader :=
  { id := "2", subject := some "hello", from_addr := some "", to_addr := none,
    cc := none, bcc := none, date := none, folder := "inbox" }

/-- Concrete record: an empty-string from field next to a one-element
to list. -/
def sampleEmptyFromWithTo : EmailHeader :=
  { id := "3", subject := none, from_addr := some "", to_addr := some ["b@y.com"],
    cc := none, bcc := none, date := none, folder := "archive" }

/-- Concrete record: a to list holding the empty string and a normal
address. -/
def sampleToList : EmailHeader :=
  { id := "4", subject := none, from_addr := none, to_addr := some ["", "a@x.com"],
    cc := none, bcc := none, date := none, folder := "inbox" }

/-- Concrete record: one address in the to list. -/
def sampleDup1 : EmailHeader :=
  { id := "5", subject := none, from_addr := none, to_addr := some ["a@x.com"],
    cc := none, bcc := none, date := none, folder := "inbox" }

/-- Concrete record: the same address as sampleDup1, in the from
field. -/
def sampleDup2 : EmailHeader :=
  { id := "6", subject := none, from_addr := some "a@x.com", to_addr := none,
    cc := none, bcc := none, date := none, folder := "sent" }

/-- Concrete record: to supplied as an explicit empty list. -/
def sampleEmptyTo : EmailHeader :=
  { id := "7", subject := none, from_addr := some "c@z.com", to_addr := some [],
    cc := none, bcc := none, date := none, folder := "inbox" }

/-- Concrete record: like sampleEmptyTo, but with to absent. -/
def sampleNoTo : EmailHeader :=
  { id := "7", subject := none, from_addr := some "c@z.com", to_addr := none,
    cc := none, bcc := none, date := none, folder := "inbox" }

/-- Concrete record: addresses plus filled-in metadata fields. -/
def sampleMeta1 : EmailHeader :=
  { id := "10", subject := some "report", from_addr := some "d@w.com",
    to_addr := some ["e@w.com"], cc := none, bcc := none,
    date := some "2024-01-01", folder := "inbox" }

/-- Concrete record: the same addresses as sampleMeta1, different id,
subject, date and folder. -/
def sampleMeta2 : EmailHeader :=
  { id := "11", subject := none, from_addr := some "d@w.com",
    to_addr := some ["e@w.com"], cc := none, bcc := none,
    date := none, folder := "trash" }

/-- Concrete raw record whose required folder field is missing. -/
def sampleRawMissingFolder : RawHeader :=
  { id := some "9", subject := none, from_addr := some "a@x.com", to_addr := none,
    cc := none, bcc := none, date := none, folder := none }

theorem mem_setAdd {s : List String} {e a : String} :
    a ∈ setAdd s e ↔ a ∈ s ∨ a = e := by
  unfold setAdd
  by_cases h : e ∈ s
  · rw [if_pos h]
    constructor
    · exact Or.inl
    · rintro (ha | rfl)
      · exact ha
      · exact h
  · rw [if_neg h]
    simp [List.mem_append]

theorem mem_setAddAll {es s : List String} {a : String} :
    a ∈ setAddAll s es ↔ a ∈ s ∨ a ∈ es := by
  induction es generalizing s with
  | nil => simp [setAddAll]
  | cons e es ih =>
    show a ∈ setAddAll (setAdd s e) es ↔ _
    rw [ih, mem_setAdd]
    simp [List.mem_cons]
    tauto

theorem mem_addIfTruthyStr {s : List String} {o : Option String} {a : String} :
    a ∈ addIfTruthyStr s o ↔ a ∈ s ∨ (o = some a ∧ a ≠ "") := by
  cases o with
  | none => simp [addIfTruthyStr]
  | some b =>
    show a ∈ (if b = "" then s else setAdd s b) ↔ _
    by_cases hb : b = ""
    · subst hb
      rw [if_pos rfl]
      constructor
      · exact Or.inl
      · rintro (ha | ⟨hsome, hne⟩)
        · exact ha
        · cases hsome
          exact absurd rfl hne
    · rw [if_neg hb, mem_setAdd]
      constructor
      · rintro (ha | rfl)
        · exact Or.inl ha
        · exact Or.inr ⟨rfl, hb⟩
      · rintro (ha | ⟨hsome, hne⟩)
        · exact Or.inl ha
        · cases hsome
          exact Or.inr rfl

theorem mem_addIfTruthyList {s : List String} {o : Option (List String)} {a : String} :
    a ∈ addIfTruthyList s o ↔ a ∈ s ∨ a ∈ o.getD [] := by
  cases o with
  | none => simp [addIfTruthyList]
  | some l =>
    show a ∈ (if l = [] then s else setAddAll s l) ↔ _
    by_cases hl : l = []
    · subst hl
      simp
    · rw [if_neg hl, mem_setAddAll]
      rfl

theorem mem_processHeader {s : List String} {header : EmailHeader} {a : String} :
    a ∈ processHeader s header ↔ a ∈ s ∨ contributes header a := by
  unfold processHeader contributes
  rw [mem_addIfTruthyList, mem_addIfTruthyList, mem_addIfTruthyList, mem_addIfTruthyStr]
  tauto

theorem mem_foldl_processHeader {headers : List EmailHeader} {s : List String} {a : String} :
    a ∈ headers.foldl processHeader s ↔ a ∈ s ∨ ∃ header ∈ headers, contributes header a := by
  induction headers generalizing s with
  | nil => simp
  | cons h hs ih =>
    rw [List.foldl_cons, ih, mem_processHeader]
    constructor
    · rintro ((ha | hc) | ⟨header, hmem, hc⟩)
      · exact Or.inl ha
      · exact Or.inr ⟨h, List.mem_cons_self h hs, hc⟩
      · exact Or.inr ⟨header, List.mem_cons_of_mem h hmem, hc⟩
    · rintro (ha | ⟨header, hmem, hc⟩)
      · exact Or.inl (Or.inl ha)
      · rcases List.mem_cons.mp hmem with rfl | hmem2
        · exact Or.inl (Or.inr hc)
        · exact Or.inr ⟨header, hmem2, hc⟩

theorem mem_parse_headers {headers : List EmailHeader} {a : String} :
    a ∈ (parse_headers headers).1 ↔ ∃ header ∈ headers, contributes header a := by
  show a ∈ headers.foldl processHeader [] ↔ _
  rw [mem_foldl_processHeader]
  simp

theorem nodup_setAdd {s : List String} {e : String} (h : s.Nodup) :
    (setAdd s e).Nodup := by
  unfold setAdd
  by_cases he : e ∈ s
  · rw [if_pos he]
    exact h
  · rw [if_neg he]
    rw [List.nodup_append]
    refine ⟨h, List.nodup_singleton e, ?_⟩
    intro a ha hmem
    rw [List.mem_singleton] at hmem
    subst hmem
    exact he ha

theorem nodup_setAddAll {es s : List String} (h : s.Nodup) :
    (setAddAll s es).Nodup := by
  induction es generalizing s with
  | nil => exact h
  | cons e es ih =>
    show (setAddAll (setAdd s e) es).Nodup
    exact ih (nodup_setAdd h)

theorem nodup_addIfTruthyStr {s : List String} {o : Option String} (h : s.Nodup) :
    (addIfTruthyStr s o).Nodup := by
  cases o with
  | none => exact h
  | some b =>
    show (if b = "" then s else setAdd s b).Nodup
    by_cases hb : b = ""
    · rw [if_pos hb]; exact h
    · rw [if_neg hb]; exact nodup_setAdd h

theorem nodup_addIfTruthyList {s : List String} {o : Option (List String)} (h : s.Nodup) :
    (addIfTruthyList s o).Nodup := by
  cases o with
  | none => exact h
  | some l =>
    show (if l = [] then s else setAddAll s l).Nodup
    by_cases hl : l = []
    · rw [if_pos hl]; exact h
    · rw [if_neg hl]; exact nodup_setAddAll h

theorem nodup_processHeader {s : List String} {header : EmailHeader} (h : s.Nodup) :
    (processHeader s header).Nodup :=
  nodup_addIfTruthyList (nodup_addIfTruthyList (nodup_addIfTruthyList (nodup_addIfTruthyStr h)))

theorem nodup_foldl_processHeader {headers : List EmailHeader} {s : List String}
    (h : s.Nodup) : (headers.foldl processHeader s).Nodup := by
  induction headers generalizing s with
  | nil => exact h
  | cons hd tl ih => exact ih (nodup_processHeader h)

theorem validateHeader_error_msg {raw : RawHeader} {e : String}
    (h : validateHeader raw = Except.error e) :
    e = "id: Field required" ∨ e = "folder: Field required" := by
  unfold validateHeader at h
  cases hid : raw.id with
  | none =>
    rw [hid] at h
    exact Or.inl (Except.error.inj h).symm
  | some i =>
    rw [hid] at h
    cases hf : raw.folder with
    | none =>
      rw [hf] at h
      exact Or.inr (Except.error.inj h).symm
    | some f =>
      rw [hf] at h
      exact Except.noConfusion h

theorem validateHeader_missing {raw : RawHeader}
    (h : raw.folder = none ∨ raw.id = none) :
    ∃ e, validateHeader raw = Except.error e := by
  unfold validateHeader
  cases hid : raw.id with
  | none => exact ⟨_, rfl⟩
  | some i =>
    cases hf : raw.folder with
    | none => exact ⟨_, rfl⟩
    | some f =>
      rcases h with h | h
      · rw [hf] at h; cases h
      · rw [hid] at h; cases h

theorem validateRequest_missing {raws : List RawHeader}
    (h : ∃ raw ∈ raws, raw.folder = none ∨ raw.id = none) :
    ∃ e, validateRequest raws = Except.error e ∧
      (e = "id: Field required" ∨ e = "folder: Field required") := by
  induction raws with
  | nil => simp at h
  | cons raw rest ih =>
    show ∃ e, (match validateHeader raw with
      | Except.error e => Except.error e
      | Except.ok header =>
        match validateRequest rest with
        | Except.error e => Except.error e
        | Except.ok headers => Except.ok (header :: headers)) = Except.error e ∧ _
    cases hv : validateHeader raw with
    | error e => exact ⟨e, rfl, validateHeader_error_msg hv⟩
    | ok header =>
      rcases h with ⟨w, hw, hmiss⟩
      rcases List.mem_cons.mp hw with rfl | hw2
      · rcases validateHeader_missing hmiss with ⟨e, he⟩
        rw [hv] at he
        cases he
      · rcases ih ⟨w, hw2, hmiss⟩ with ⟨e, he, hmsg⟩
        rw [he]
        exact ⟨e, rfl, hmsg⟩

theorem processHeader_blankFrom {s : List String} {header : EmailHeader} :
    processHeader s (blankFrom header) = processHeader s header := by
  unfold blankFrom
  by_cases hf : header.from_addr = some ""
  · rw [if_pos hf]
    unfold processHeader
    show addIfTruthyList (addIfTruthyList (addIfTruthyList
      (addIfTruthyStr s none) header.to_addr) header.cc) header.bcc = _
    rw [hf]
    show addIfTruthyList (addIfTruthyList (addIfTruthyList
      s header.to_addr) header.cc) header.bcc =
      addIfTruthyList (addIfTruthyList (addIfTruthyList
      (if ("" : String) = "" then s else setAdd s "") header.to_addr) header.cc) header.bcc
    rw [if_pos rfl]
  · rw [if_neg hf]

theorem foldl_processHeader_map_blankFrom {headers : List EmailHeader} {s : List String} :
    (headers.map blankFrom).foldl processHeader s = headers.foldl processHeader s := by
  induction headers generalizing s with
  | nil => rfl
  | cons h t ih =>
    show (blankFrom h :: t.map blankFrom).foldl processHeader s = _
    rw [List.foldl_cons, List.foldl_cons, processHeader_blankFrom]
    exact ih

theorem addIfTruthyList_congr {s : List String} {o1 o2 : Option (List String)}
    (h : optListEquiv o1 o2) : addIfTruthyList s o1 = addIfTruthyList s o2 := by
  unfold optListEquiv at h
  rcases h with rfl | ⟨h1, h2⟩ | ⟨h1, h2⟩
  · rfl
  · rw [h1, h2]
    show (if ([] : List String) = [] then s else setAddAll s []) = s
    rw [if_pos rfl]
  · rw [h1, h2]
    show s = (if ([] : List String) = [] then s else setAddAll s [])
    rw [if_pos rfl]

theorem processHeader_congr_emptyLists {s : List String} {h1 h2 : EmailHeader}
    (h : sameUpToEmptyLists h1 h2) : processHeader s h1 = processHeader s h2 := by
  unfold sameUpToEmptyLists at h
  obtain ⟨-, -, hf, ht, hc, hb, -, -⟩ := h
  unfold processHeader
  rw [hf, addIfTruthyList_congr ht, addIfTruthyList_congr hc, addIfTruthyList_congr hb]

theorem foldl_congr_emptyLists {hs1 hs2 : List EmailHeader}
    (h : List.Forall₂ sameUpToEmptyLists hs1 hs2) :
    ∀ s, hs1.foldl processHeader s = hs2.foldl processHeader s := by
  induction h with
  | nil => intro s; rfl
  | cons hpair hrest ih =>
    intro s
    rw [List.foldl_cons, List.foldl_cons, processHeader_congr_emptyLists hpair]
    exact ih _

theorem processHeader_congr_addr {s : List String} {h1 h2 : EmailHeader}
    (h : sameAddressFields h1 h2) : processHeader s h1 = processHeader s h2 := by
  unfold sameAddressFields at h
  obtain ⟨hf, ht, hc, hb⟩ := h
  unfold processHeader
  rw [hf, ht, hc, hb]

theorem foldl_congr_addr {hs1 hs2 : List EmailHeader}
    (h : List.Forall₂ sameAddressFields hs1 hs2) :
    ∀ s, hs1.foldl processHeader s = hs2.foldl processHeader s := by
  induction h with
  | nil => intro s; rfl
  | cons hpair hrest ih =>
    intro s
    rw [List.foldl_cons, List.foldl_cons, processHeader_congr_addr hpair]
    exact ih _

/-- Claim C1: for every valid request, the total_processed field of
the /parse response equals the number of HeaderRecord elements in the
input headers list, regardless of how many addresses were found or
whether any address fields were empty or absent. -/
theorem C1_total_processed_eq_length (headers : List EmailHeader) :
    (parse_headers headers).2 = headers.length := rfl

/-- Claim C2 counterexample: a record whose from field is the empty
string contributes nothing, because the empty string is falsy in the
truthiness test of the source; the claim that it contributes the empty
string to unique_emails is therefore false. -/
theorem C2_counterexample :
    sampleEmptyFrom.from_addr = some "" ∧
    ¬ ("" ∈ (parse_headers [sampleEmptyFrom]).1) := by decide

/-- Claim C2 (amended): empty-string addresses appearing as elements
of a present to/cc/bcc list are added to the unique-address set as-is
with no filtering, while a record whose from field is the empty string
is treated exactly as if the field were absent and contributes
nothing. -/
theorem C2_empty_string_handling (headers : List EmailHeader) :
    parse_headers (headers.map blankFrom) = parse_headers headers ∧
    ∀ header ∈ headers,
      ("" ∈ header.to_addr.getD [] ∨ "" ∈ header.cc.getD [] ∨ "" ∈ header.bcc.getD []) →
      "" ∈ (parse_headers headers).1 := by
  constructor
  · show (_, _) = (_, _)
    rw [foldl_processHeader_map_blankFrom, List.length_map]
  · intro header hmem hin
    apply mem_parse_headers.mpr
    refine ⟨header, hmem, ?_⟩
    unfold contributes
    rcases hin with h | h | h
    · exact Or.inr (Or.inl h)
    · exact Or.inr (Or.inr (Or.inl h))
    · exact Or.inr (Or.inr (Or.inr h))

/-- Witness for the amended claim C2, at a record whose to list holds
the empty string. -/
theorem C2_empty_string_handling_witness :
    parse_headers ([sampleToList].map blankFrom) = parse_headers [sampleToList] ∧
    "" ∈ (parse_headers [sampleToList]).1 :=
  ⟨(C2_empty_string_handling [sampleToList]).1,
   (C2_empty_string_handling [sampleToList]).2 sampleToList (by decide) (by decide)⟩

/-- Claim C3 counterexample: the empty string appears in the from
field of a record of the request, yet is absent from unique_emails, so
completeness over all four fields fails as stated. -/
theorem C3_counterexample :
    sampleEmptyFromWithTo.from_addr = some "" ∧
    ¬ ("" ∈ (parse_headers [sampleEmptyFromWithTo]).1) := by decide

/-- Claim C3 (amended): every non-empty address appearing in a from
field, and every element of any present to/cc/bcc list, appears at
least once in unique_emails; the single exception is an empty-string
from value, which the truthiness test skips. -/
theorem C3_completeness (headers : List EmailHeader) (header : EmailHeader)
    (hmem : header ∈ headers) :
    (∀ a, header.from_addr = some a → a ≠ "" → a ∈ (parse_headers headers).1) ∧
    (∀ a, a ∈ header.to_addr.getD [] → a ∈ (parse_headers headers).1) ∧
    (∀ a, a ∈ header.cc.getD [] → a ∈ (parse_headers headers).1) ∧
    (∀ a, a ∈ header.bcc.getD [] → a ∈ (parse_headers headers).1) := by
  refine ⟨fun a hf hne => ?_, fun a ht => ?_, fun a hc => ?_, fun a hb => ?_⟩ <;>
    apply mem_parse_headers.mpr <;> refine ⟨header, hmem, ?_⟩ <;> unfold contributes
  · exact Or.inl ⟨hf, hne⟩
  · exact Or.inr (Or.inl ht)
  · exact Or.inr (Or.inr (Or.inl hc))
  · exact Or.inr (Or.inr (Or.inr hb))

/-- Witness for the amended claim C3, at a record with one address in
its to list. -/
theorem C3_completeness_witness :
    "a@x.com" ∈ (parse_headers [sampleDup1]).1 :=
  (C3_completeness [sampleDup1] sampleDup1 (by decide)).2.1 "a@x.com" (by decide)

/-- Claim C4: every element of the unique_emails list equals some
record's from value or some element of some record's to, cc or bcc
list; the aggregation introduces no extraneous values. -/
theorem C4_soundness (headers : List EmailHeader) (a : String)
    (h : a ∈ (parse_headers headers).1) :
    ∃ header ∈ headers,
      header.from_addr = some a ∨ a ∈ header.to_addr.getD [] ∨
      a ∈ header.cc.getD [] ∨ a ∈ header.bcc.getD [] := by
  rcases mem_parse_headers.mp h with ⟨header, hmem, hc⟩
  refine ⟨header, hmem, ?_⟩
  unfold contributes at hc
  rcases hc with ⟨hf, -⟩ | ht | hcc | hb
  · exact Or.inl hf
  · exact Or.inr (Or.inl ht)
  · exact Or.inr (Or.inr (Or.inl hcc))
  · exact Or.inr (Or.inr (Or.inr hb))

/-- Witness for claim C4, at a record whose from field holds one
address. -/
theorem C4_soundness_witness :
    "a@x.com" ∈ (parse_headers [sampleFromOnly]).1 ∧
    ∃ header ∈ [sampleFromOnly],
      header.from_addr = some "a@x.com" ∨ "a@x.com" ∈ header.to_addr.getD [] ∨
      "a@x.com" ∈ header.cc.getD [] ∨ "a@x.com" ∈ header.bcc.getD [] :=
  ⟨by decide, C4_soundness [sampleFromOnly] "a@x.com" (by decide)⟩

/-- Claim C5: the unique_emails list never contains duplicate strings;
an address added from several fields or records collapses to a single
entry under exact, case-sensitive string equality. -/
theorem C5_no_duplicates (headers : List EmailHeader) :
    (parse_headers headers).1.Nodup :=
  nodup_foldl_processHeader List.nodup_nil

/-- Claim C6: a request in which some record is missing the required
folder field (or the required id field) is rejected with a validation
error naming the failed field, and no aggregation result is returned
for the batch. -/
theorem C6_missing_required_field (raws : List RawHeader)
    (h : ∃ raw ∈ raws, raw.folder = none ∨ raw.id = none) :
    ∃ e, handleParse raws = Except.error e ∧
      (e = "id: Field required" ∨ e = "folder: Field required") := by
  rcases validateRequest_missing h with ⟨e, he, hmsg⟩
  refine ⟨e, ?_, hmsg⟩
  unfold handleParse
  rw [he]

/-- Witness for claim C6, at a request whose single record lacks the
folder field. -/
theorem C6_missing_required_field_witness :
    ∃ e, handleParse [sampleRawMissingFolder] = Except.error e ∧
      (e = "id: Field required" ∨ e = "folder: Field required") :=
  C6_missing_required_field [sampleRawMissingFolder] (by decide)

/-- Claim C7: two calls of the aggregation on the same valid request
body produce the same total_processed value and unique_emails lists
that are equal as sets. -/
theorem C7_determinism (hs1 hs2 : List EmailHeader) (h : hs1 = hs2) :
    (parse_headers hs1).2 = (parse_headers hs2).2 ∧
    (parse_headers hs1).1.toFinset = (parse_headers hs2).1.toFinset := by
  subst h
  exact ⟨rfl, rfl⟩

/-- Witness for claim C7, at a concrete two-record request. -/
theorem C7_determinism_witness :
    (parse_headers [sampleFromOnly, sampleToList]).2 =
      (parse_headers [sampleFromOnly, sampleToList]).2 ∧
    (parse_headers [sampleFromOnly, sampleToList]).1.toFinset =
      (parse_headers [sampleFromOnly, sampleToList]).1.toFinset :=
  C7_determinism [sampleFromOnly, sampleToList] [sampleFromOnly, sampleToList] rfl

/-- Claim C8: permuting the records of a valid request leaves
total_processed unchanged and yields a unique_emails list equal as a
set to that of the original order. -/
theorem C8_permutation_invariance (hs1 hs2 : List EmailHeader) (h : hs1.Perm hs2) :
    (parse_headers hs1).2 = (parse_headers hs2).2 ∧
    (parse_headers hs1).1.toFinset = (parse_headers hs2).1.toFinset := by
  constructor
  · exact h.length_eq
  · ext a
    rw [List.mem_toFinset, List.mem_toFinset, mem_parse_headers, mem_parse_headers]
    constructor
    · rintro ⟨header, hmem, hc⟩
      exact ⟨header, h.mem_iff.mp hmem, hc⟩
    · rintro ⟨header, hmem, hc⟩
      exact ⟨header, h.mem_iff.mpr hmem, hc⟩

/-- Witness for claim C8, at a swap of two concrete records. -/
theorem C8_permutation_invariance_witness :
    (parse_headers [sampleToList, sampleFromOnly]).2 =
      (parse_headers [sampleFromOnly, sampleToList]).2 ∧
    (parse_headers [sampleToList, sampleFromOnly]).1.toFinset =
      (parse_headers [sampleFromOnly, sampleToList]).1.toFinset :=
  C8_permutation_invariance [sampleToList, sampleFromOnly] [sampleFromOnly, sampleToList]
    (List.Perm.swap sampleFromOnly sampleToList [])

/-- Claim C9: supplying an explicit empty list for to, cc or bcc
yields exactly the same aggregation result as omitting the field or
supplying null, record by record: an empty list is falsy, contributes
nothing and causes no error. -/
theorem C9_empty_list_eq_absent (hs1 hs2 : List EmailHeader)
    (h : List.Forall₂ sameUpToEmptyLists hs1 hs2) :
    parse_headers hs1 = parse_headers hs2 := by
  unfold parse_headers
  rw [foldl_congr_emptyLists h [], h.length_eq]

/-- Witness for claim C9, at a record with an explicit empty to list
against its absent-field twin. -/
theorem C9_empty_list_eq_absent_witness :
    parse_headers [sampleEmptyTo] = parse_headers [sampleNoTo] :=
  C9_empty_list_eq_absent [sampleEmptyTo] [sampleNoTo]
    (List.Forall₂.cons (by decide) List.Forall₂.nil)

/-- Claim C10: two valid requests whose records agree pointwise on the
from/to/cc/bcc fields (hence whose headers lists have equal length)
but differ arbitrarily in the id, subject, date and folder values
produce responses that are equal as (unique_emails set,
total_processed) pairs. -/
theorem C10_noninterference (hs1 hs2 : List EmailHeader)
    (h : List.Forall₂ sameAddressFields hs1 hs2) :
    (parse_headers hs1).1.toFinset = (parse_headers hs2).1.toFinset ∧
    (parse_headers hs1).2 = (parse_headers hs2).2 := by
  constructor
  · show (hs1.foldl processHeader []).toFinset = (hs2.foldl processHeader []).toFinset
    rw [foldl_congr_addr h []]
  · exact h.length_eq

/-- Witness for claim C10, at two records sharing addresses but
differing in id, subject, date and folder. -/
theorem C10_noninterference_witness :
    (parse_headers [sampleMeta1]).1.toFinset = (parse_headers [sampleMeta2]).1.toFinset ∧
    (parse_headers [sampleMeta1]).2 = (parse_headers [sampleMeta2]).2 :=
  C10_noninterference [sampleMeta1] [sampleMeta2]
    (List.Forall₂.cons (by decide) List.Forall₂.nil)
